import Mathlib

/-!
Shallow embedding of `src/showyourwork/zenodo.py` (the `Zenodo` class):
the Hash Ledger stored in the deposit metadata `notes` field, the
draft/record file search (`download_file_from_draft`,
`download_file_from_record`), the resolution protocol (`download_file`),
upload (`upload_file_to_draft`, `upload_file`), deletion (`delete`),
the ownership probe (`check_if_user_is_owner`) and the tarball
extraction guard (`is_within_directory` / `safe_extract`).

Network transport is modelled as the capability described by the spec:
every HTTP request is represented by its observable outcome (a status
classification plus the parsed body, or a parse failure), supplied as
explicit environment data to each function.  Exceptions raised by the
Python code are modelled as explicit result constructors.
-/

set_option autoImplicit false

namespace Zenodo

/-- One entry of a remote file listing.  For a draft the name comes from
the `filename` field, for a published record from the `key` field; the
`content` field abstractly identifies the stored bytes (which copy of an
artifact this is). -/
structure FileEntry where
  filename : String
  content : String
  deriving DecidableEq, Repr

/-- The observable state of a draft deposit: the metadata `notes` field
(absent or a raw string) and the file listing served by the draft's
`files` URL. -/
structure Draft where
  notes : Option String
  files : List FileEntry
  deriving DecidableEq, Repr

/-- The observable state of a published record version: the metadata
`notes` field and the inline `files` listing. -/
structure Record where
  notes : Option String
  files : List FileEntry
  deriving DecidableEq, Repr

/-! ## The Hash Ledger wire format: `json.loads` on the notes field

The ledger is a JSON object with string keys and string values
(`rule name -> artifact filename`).  `jsonLoadsLedger` models
`json.loads` on this wire format: it accepts exactly the JSON texts that
denote such a flat string-to-string object (no escape sequences) and
rejects everything else, mirroring `json.JSONDecodeError`.  Duplicate
keys follow Python dict semantics: the later binding wins, the position
of the first occurrence is kept. -/

/-- Drop leading JSON whitespace characters. -/
def skipWs : List Char → List Char
  | c :: cs => if c = ' ' ∨ c = '\t' ∨ c = '\n' ∨ c = '\r' then skipWs cs else c :: cs
  | [] => []

/-- Read the remainder of a JSON string literal (opening quote already
consumed); rejects escape sequences. -/
def parseJStringAux : List Char → List Char → Option (String × List Char)
  | [], _ => none
  | c :: cs, acc =>
    if c = '"' then some (String.mk acc.reverse, cs)
    else if c = '\\' then none
    else parseJStringAux cs (c :: acc)

/-- Read a JSON string literal. -/
def parseJString : List Char → Option (String × List Char)
  | '"' :: cs => parseJStringAux cs []
  | _ => none

/-- Insert a binding with Python dict semantics: an existing key is
updated in place, a new key is appended. -/
def dictInsert (l : List (String × String)) (k v : String) : List (String × String) :=
  if l.any (fun p => p.1 = k) then
    l.map (fun p => if p.1 = k then (k, v) else p)
  else
    l ++ [(k, v)]

/-- Look a key up in a ledger. -/
def dictGet : List (String × String) → String → Option String
  | [], _ => none
  | (k, v) :: rest, key => if k = key then some v else dictGet rest key

/-- Parse the members of a JSON object after the opening brace
(fuel-bounded; each member consumes at least one character). -/
def parseMembers (fuel : Nat) (entries : List (String × String)) (cs : List Char) :
    Option (List (String × String) × List Char) :=
  match fuel with
  | 0 => none
  | fuel + 1 =>
    match parseJString (skipWs cs) with
    | none => none
    | some (k, cs1) =>
      match skipWs cs1 with
      | ':' :: cs2 =>
        match parseJString (skipWs cs2) with
        | none => none
        | some (v, cs3) =>
          match skipWs cs3 with
          | ',' :: cs4 => parseMembers fuel (dictInsert entries k v) cs4
          | '\x7d' :: cs4 => some (dictInsert entries k v, cs4)
          | _ => none
      | _ => none

/-- Model of `json.loads` restricted to the Hash Ledger wire format:
returns the parsed object for a valid flat string-to-string JSON object
and `none` (the analogue of `json.JSONDecodeError`) otherwise. -/
def jsonLoadsLedger (s : String) : Option (List (String × String)) :=
  match skipWs s.toList with
  | '\x7b' :: cs =>
    match skipWs cs with
    | '\x7d' :: rest => if skipWs rest = [] then some [] else none
    | cs1 =>
      match parseMembers (s.length + 1) [] cs1 with
      | some (entries, rest) => if skipWs rest = [] then some entries else none
      | none => none
  | _ => none

/-- Join strings with a separator. -/
def joinWith (sep : String) : List String → String
  | [] => ""
  | [x] => x
  | x :: y :: xs => x ++ sep ++ joinWith sep (y :: xs)

/-- Model of `json.dumps(rule_hashes, indent=4)`. -/
def serializeLedger : List (String × String) → String
  | [] => "\x7b\x7d"
  | l =>
    "\x7b\n" ++
      joinWith ",\n"
        (l.map fun p => "    \"" ++ p.1 ++ "\": \"" ++ p.2 ++ "\"") ++
      "\n\x7d"

/-- The notes string actually parsed by the three ledger readers:
`metadata.get("notes", "{}")` — an absent field defaults to the empty
object text. -/
def notesOrDefault (notes : Option String) : String :=
  notes.getD "\x7b\x7d"

/-! ## Downloading from one draft or one record version -/

/-- Outcome of `download_file_from_draft` / `download_file_from_record`
on one deposit version.  `missingToken` is the `require_access_token`
decorator raising `MissingZenodoAccessToken`; `invalidNotes` is
`InvalidZenodoNotesField`; `found` records which file entry was
downloaded; `notFound` is the raised `FileNotFoundOnZenodo`. -/
inductive FromVersionResult where
  | missingToken
  | invalidNotes
  | found (entry : FileEntry)
  | notFound
  deriving DecidableEq, Repr

/-- The entry-scanning loop shared by `download_file_from_draft` and
`download_file_from_record`: take the first entry whose stored filename
equals the rule name when the ledger entry for the rule name equals the
local artifact's filename; a filename match with any other ledger value
executes `break`, abandoning the rest of the listing; otherwise keep
scanning.  Falling off the end raises `FileNotFoundOnZenodo`.
`ruleHash` is `rule_hashes.get(rule_name, None)`, constant over the
loop. -/
def searchEntries (ruleHash : Option String) (ruleName fileName : String) :
    List FileEntry → FromVersionResult
  | [] => .notFound
  | e :: rest =>
    if e.filename = ruleName ∧ ruleHash = some fileName then .found e
    else if e.filename = ruleName then .notFound
    else searchEntries ruleHash ruleName fileName rest

/-- Model of `Zenodo.download_file_from_draft` (decorated with
`require_access_token`): parse the ledger out of the draft's notes
field (absent defaults to `"{}"`), fail with `InvalidZenodoNotesField`
on a non-JSON value, then scan the draft's file listing with
`searchEntries`. -/
def download_file_from_draft (hasToken : Bool) (draft : Draft)
    (fileName ruleName : String) : FromVersionResult :=
  if hasToken then
    match jsonLoadsLedger (notesOrDefault draft.notes) with
    | none => .invalidNotes
    | some ledger =>
      searchEntries (dictGet ledger ruleName) ruleName fileName draft.files
  else
    .missingToken

/-- Model of `Zenodo.download_file_from_record` (no token required):
identical ledger parse and scan over the record's `files` listing (the
record uses the `key` field for the stored filename). -/
def download_file_from_record (record : Record)
    (fileName ruleName : String) : FromVersionResult :=
  match jsonLoadsLedger (notesOrDefault record.notes) with
  | none => .invalidNotes
  | some ledger =>
    searchEntries (dictGet ledger ruleName) ruleName fileName record.files

/-! ## The resolution protocol: `download_file` -/

/-- What `download_file` needs from the first deposition returned by
the depositions search: whether its `links` dict carries a
`latest_draft` URL. -/
structure DepositionStub where
  hasLatestDraft : Bool
  deriving DecidableEq, Repr

/-- Environment of one `download_file` call: the observable outcome of
each network request it can make, in order.  `none` in an `Option`
body field models a response whose body could not be parsed as JSON.
`searchHits` holds the record versions as returned by the records
search endpoint, in ascending publication order (oldest first);
modelled from the spec: the Resolution Protocol consumes published
records newest-first (spec §4.2 step 4 and §5) and the code iterates
the raw hits list reversed, so the raw response order is oldest-first. -/
structure DownloadEnv where
  depsStatusOk : Bool
  depsData : Option (List DepositionStub)
  draftStatusOk : Bool
  draft : Draft
  probeStatusOk : Bool
  probeMessage : Option String
  searchStatusOk : Bool
  searchHits : Option (List Record)
  searchMessage : Option String
  deriving Repr

/-- Outcome of `download_file`.  `foundInDraft`/`foundInRecord` record
which copy was downloaded; `cacheMiss` is the final
`FileNotFoundOnZenodo`; `serviceError` is a raised `ZenodoError`
carrying the message the code would attach. -/
inductive DownloadOutcome where
  | missingToken
  | invalidNotes
  | foundInDraft (entry : FileEntry)
  | foundInRecord (record : Record) (entry : FileEntry)
  | serviceError (message : String)
  | cacheMiss
  deriving DecidableEq, Repr

/-- Default `ZenodoError` message, standing for the code's
`f"An error occurred while accessing {self.service}."`. -/
def defaultErrorMessage : String := "An error occurred while accessing the service."

/-- Model of Python's `needle in hay` on strings: substring containment. -/
def containsSubstr (needle hay : String) : Bool :=
  decide (List.IsInfix needle.toList hay.toList)

/-- The loop `for record in records[::-1]` in `download_file`, applied
to an already-reversed list: try each record; `FileNotFoundOnZenodo`
is caught and the loop continues with the next (older) record; a found
file returns; `InvalidZenodoNotesField` is not caught and propagates. -/
def searchRecords (fileName ruleName : String) : List Record → DownloadOutcome
  | [] => .cacheMiss
  | r :: rest =>
    match download_file_from_record r fileName ruleName with
    | .found e => .foundInRecord r e
    | .notFound => searchRecords fileName ruleName rest
    | .invalidNotes => .invalidNotes
    | .missingToken => .missingToken

/-- Phase 1 of `download_file` (lines 746-807): query the depositions
endpoint for the concept ID; on success take the first deposition's
`latest_draft` link, fetch the draft and search it.  Returns `some`
outcome when the call returns or an exception other than
`FileNotFoundOnZenodo` propagates, `none` when control falls through
to the published-record phase (any access failure, a missing draft
link, or a cache miss inside the draft). -/
def draftPhase (hasToken : Bool) (env : DownloadEnv)
    (fileName ruleName : String) : Option DownloadOutcome :=
  if env.depsStatusOk then
    match env.depsData.getD [] with
    | [] => none
    | d :: _ =>
      if d.hasLatestDraft then
        if env.draftStatusOk then
          match download_file_from_draft hasToken env.draft fileName ruleName with
          | .found e => some (.foundInDraft e)
          | .invalidNotes => some .invalidNotes
          | .missingToken => some .missingToken
          | .notFound => none
        else none
      else none
  else none

/-- Phase 2 of `download_file` (lines 809-878): probe
`GET /api/records/{concept_id}`.  On a failing probe, a body message
containing `"PID is not registered"` means no published record exists
and control falls through to the final `FileNotFoundOnZenodo`; any
other failure raises `ZenodoError`.  On a successful probe, search all
versions returned by the records endpoint, iterating the hits reversed
(newest first); a failing search request raises `ZenodoError`. -/
def recordPhase (env : DownloadEnv) (fileName ruleName : String) : DownloadOutcome :=
  if env.probeStatusOk then
    if env.searchStatusOk then
      searchRecords fileName ruleName (env.searchHits.getD []).reverse
    else
      .serviceError ((env.searchMessage).getD defaultErrorMessage)
  else
    if containsSubstr "PID is not registered" ((env.probeMessage).getD "") then
      .cacheMiss
    else
      .serviceError ((env.probeMessage).getD defaultErrorMessage)

/-- Model of `Zenodo.download_file`: the draft phase runs first; when
it falls through, the published-record phase decides the outcome. -/
def download_file (hasToken : Bool) (env : DownloadEnv)
    (fileName ruleName : String) : DownloadOutcome :=
  match draftPhase hasToken env fileName ruleName with
  | some o => o
  | none => recordPhase env fileName ruleName

/-! ## Uploading: `upload_file_to_draft` and `upload_file` -/

/-- Remove the first file entry with the given stored filename (the
`DELETE` issued for the first matching entry of the files listing). -/
def removeFirstFile : List FileEntry → String → List FileEntry
  | [], _ => []
  | f :: rest, name => if f.filename = name then rest else f :: removeFirstFile rest name

/-- Effect of the bucket `PUT {bucket_url}/{rule_name}`: the entry
replaces an existing file of the same stored name, else is appended. -/
def putFile (files : List FileEntry) (e : FileEntry) : List FileEntry :=
  if files.any (fun f => f.filename = e.filename) then
    files.map (fun f => if f.filename = e.filename then e else f)
  else
    files ++ [e]

/-- Remote effects of one `upload_file_to_draft` call that ran to
completion: which file entry (if any) was deleted from the draft,
whether the bucket upload was performed, and the resulting draft
state (files listing plus rewritten notes field). -/
structure UploadEffects where
  deletedRemoteFile : Option FileEntry
  uploadedFile : Bool
  newDraft : Draft
  deriving DecidableEq, Repr

/-- Outcome of `upload_file_to_draft`. -/
inductive UploadDraftResult where
  | missingToken
  | invalidNotes
  | done (eff : UploadEffects)
  deriving DecidableEq, Repr

/-- Model of `Zenodo.upload_file_to_draft` (decorated with
`require_access_token`): parse the ledger from the draft's notes
(`InvalidZenodoNotesField` on a non-JSON value).  If the ledger entry
for the rule name equals the local file's name, return at once — the
remote copy is up to date and nothing is touched.  Otherwise, when the
ledger entry is truthy (present and non-empty), delete the first
remote file stored under the rule name; then upload the local file to
the bucket under the rule name, update the ledger entry to the local
file's name and push the re-serialized metadata. -/
def upload_file_to_draft (hasToken : Bool) (draft : Draft)
    (fileName ruleName : String) : UploadDraftResult :=
  if hasToken then
    match jsonLoadsLedger (notesOrDefault draft.notes) with
    | none => .invalidNotes
    | some ledger =>
      let ruleHashOnZenodo := dictGet ledger ruleName
      if ruleHashOnZenodo = some fileName then
        .done ⟨none, false, draft⟩
      else
        let deleted :=
          match ruleHashOnZenodo with
          | some h => if h = "" then none else draft.files.find? (fun f => f.filename = ruleName)
          | none => none
        let filesAfterDelete :=
          match ruleHashOnZenodo with
          | some h => if h = "" then draft.files else removeFirstFile draft.files ruleName
          | none => draft.files
        let newFiles := putFile filesAfterDelete ⟨ruleName, fileName⟩
        let newNotes := serializeLedger (dictInsert ledger ruleName fileName)
        .done ⟨deleted, true, ⟨some newNotes, newFiles⟩⟩
  else
    .missingToken

/-- What `upload_file` reads off the first deposition returned by the
depositions search: the `latest_draft` link, the `submitted` flag and
the deposition id (used by the new-version action). -/
structure UploadDepositionStub where
  hasLatestDraft : Bool
  submitted : Bool
  id : Nat
  deriving DecidableEq, Repr

/-- Environment of one `upload_file` call: outcome of the depositions
search, whether the subsequent draft fetch (and, when needed, the
new-version action) succeeds, and the draft body eventually fetched. -/
structure UploadEnv where
  depsStatusOk : Bool
  depsData : Option (List UploadDepositionStub)
  draftFetchOk : Bool
  draft : Draft
  deriving Repr

/-- Outcome of `upload_file`.  `warnedNoUpload` is the branch that
logs the "authentication failed, unable to upload cache" warning and
returns without raising and without touching any remote state;
`serviceError` is `parse_request` raising on the draft fetch or
new-version action; `proceeded` wraps the `upload_file_to_draft`
call's result. -/
inductive UploadOutcome where
  | missingToken
  | warnedNoUpload
  | serviceError
  | proceeded (r : UploadDraftResult)
  deriving DecidableEq, Repr

/-- Model of `Zenodo.upload_file` (decorated with
`require_access_token`): a failing depositions search (status above
204), an unparsable body or an empty result list all degrade to the
warning branch.  Otherwise the draft URL is resolved (the
`latest_draft` link, else the deposition's own link when unsubmitted,
else a new version is created) and `upload_file_to_draft` runs on the
fetched draft. -/
def upload_file (hasToken : Bool) (env : UploadEnv)
    (fileName ruleName : String) : UploadOutcome :=
  if hasToken then
    if env.depsStatusOk then
      match env.depsData.getD [] with
      | [] => .warnedNoUpload
      | _ :: _ =>
        if env.draftFetchOk then
          .proceeded (upload_file_to_draft true env.draft fileName ruleName)
        else
          .serviceError
    else
      .warnedNoUpload
  else
    .missingToken

/-! ## Deposit deletion: `delete` -/

/-- What `delete` reads off each deposition returned by the search:
its `submitted` flag and its version id. -/
structure Deposition where
  submitted : Bool
  id : Nat
  deriving DecidableEq, Repr

/-- Outcome of `delete`: `recordNotFound` is the raised
`ZenodoRecordNotFound`; `deleted` names the version id the `DELETE`
request was issued for. -/
inductive DeleteResult where
  | missingToken
  | recordNotFound
  | deleted (versionId : Nat)
  deriving DecidableEq, Repr

/-- Model of `Zenodo.delete` (decorated with `require_access_token`):
iterate the depositions returned for the concept ID and break at the
first one with `submitted` false; looping off the end, or any failure
to parse the response (`deps = none`), raises `ZenodoRecordNotFound`.
The version found is the one deleted. -/
def delete (hasToken : Bool) (deps : Option (List Deposition)) : DeleteResult :=
  if hasToken then
    match deps with
    | none => .recordNotFound
    | some l =>
      match l.find? (fun d => !d.submitted) with
      | none => .recordNotFound
      | some d => .deleted d.id
  else
    .missingToken

/-! ## Ownership probe: `check_if_user_is_owner` -/

/-- The session-scoped flag files `{deposit_id}_AUTH_VALID` and
`{deposit_id}_AUTH_INVALID` for one concept ID. -/
structure Session where
  authValid : Bool
  authInvalid : Bool
  deriving DecidableEq, Repr

/-- Observable outcome of the depositions probe request:
`statusOk` is `r.status_code <= 204`, `isNonemptyList` is
`type(r.json()) is list and len(r.json())`. -/
structure OwnerProbe where
  statusOk : Bool
  isNonemptyList : Bool
  deriving DecidableEq, Repr

/-- Result of `check_if_user_is_owner`: the returned boolean, the
session flag state afterwards, and whether a network request was
made. -/
structure OwnerResult where
  answer : Bool
  session : Session
  networkCalled : Bool
  deriving DecidableEq, Repr

/-- Model of `Zenodo.check_if_user_is_owner`: an existing
`AUTH_VALID` flag answers true and an existing `AUTH_INVALID` flag
answers false, both without any network request; otherwise, with a
token present, the depositions search runs — a success status with a
nonempty list result touches `AUTH_VALID` and returns true, and every
other outcome (as does a missing token, without any request) touches
`AUTH_INVALID` and returns false. -/
def check_if_user_is_owner (s : Session) (hasToken : Bool)
    (probe : OwnerProbe) : OwnerResult :=
  if s.authValid then ⟨true, s, false⟩
  else if s.authInvalid then ⟨false, s, false⟩
  else if hasToken then
    if probe.statusOk ∧ probe.isNonemptyList then
      ⟨true, ⟨true, s.authInvalid⟩, true⟩
    else
      ⟨false, ⟨s.authValid, true⟩, true⟩
  else
    ⟨false, ⟨s.authValid, true⟩, false⟩

/-! ## Tarball extraction guard: `is_within_directory` / `safe_extract`

The nested helper functions inside `download_file_from_draft` and
`download_file_from_record` (identical in both) loop over every archive
member first, raising "Attempted Path Traversal in Tar File" before any
write; only when every member passes is `tar.extractall(path, members,
numeric_owner)` reached.  That call passes the keyword-only parameter
`numeric_owner` of `TarFile.extractall` positionally
(its signature is `extractall(self, path=".", members=None, *,
numeric_owner=False, ...)`), so it raises `TypeError` on every
invocation: extraction never succeeds, no member is ever written, and
the `Path(f"{file}.tar.gz").unlink()` line after the `with` block is
never reached.  POSIX path semantics (`os.path.join`,
`os.path.abspath`, `os.path.commonprefix`) are embedded below. -/

/-- Split a character list at every slash. -/
def splitOnSlashAux : List Char → List Char → List String
  | [], acc => [String.mk acc.reverse]
  | c :: cs, acc =>
    if c = '/' then String.mk acc.reverse :: splitOnSlashAux cs []
    else splitOnSlashAux cs (c :: acc)

/-- Split a path string into its slash-separated components. -/
def splitOnSlash (s : String) : List String :=
  splitOnSlashAux s.toList []

/-- Does the path string start with a slash (POSIX `os.path.isabs`)? -/
def startsWithSlash (s : String) : Bool :=
  match s.toList with
  | '/' :: _ => true
  | _ => false

/-- Does the path string end with a slash? -/
def endsWithSlash (s : String) : Bool :=
  s.toList.getLast? = some '/'

/-- Model of POSIX `os.path.join(a, b)` for two components. -/
def posixJoin (a b : String) : String :=
  if startsWithSlash b then b
  else if a = "" ∨ endsWithSlash a then a ++ b
  else a ++ "/" ++ b

/-- Lexical normalization of an absolute path, as `os.path.normpath`
does on an absolute input: drop empty and `.` segments, resolve each
`..` against the segment before it (bottoming out at the root). -/
def normAbs (s : String) : String :=
  let segs := (splitOnSlash s).filter (fun x => x ≠ "" ∧ x ≠ ".")
  let resolved := segs.foldl (fun acc seg => if seg = ".." then acc.dropLast else acc ++ [seg]) []
  "/" ++ joinWith "/" resolved

/-- Model of `os.path.abspath(p)` for a process whose working
directory is the absolute path `cwd`. -/
def abspath (cwd p : String) : String :=
  normAbs (posixJoin cwd p)

/-- Longest common character prefix of two character lists. -/
def commonprefixList : List Char → List Char → List Char
  | a :: as, b :: bs => if a = b then a :: commonprefixList as bs else []
  | _, _ => []

/-- Model of `os.path.commonprefix([a, b])`: the longest common
string prefix — character-wise, not path-segment-wise. -/
def commonprefix (a b : String) : String :=
  String.mk (commonprefixList a.toList b.toList)

/-- Model of the nested `is_within_directory(directory, target)`:
compare the character-wise common prefix of the two absolutized paths
with the absolutized directory. -/
def is_within_directory (cwd directory target : String) : Bool :=
  commonprefix (abspath cwd directory) (abspath cwd target) = abspath cwd directory

/-- Model of the check loop in the nested `safe_extract(tar, path)`:
every member name of the archive must pass `is_within_directory(path,
os.path.join(path, member.name))`. -/
def safe_extract_check (cwd path : String) (memberNames : List String) : Bool :=
  memberNames.all (fun m => is_within_directory cwd path (posixJoin path m))

/-- Exception ending a tarball extraction attempt:
`pathTraversal` is the `Exception("Attempted Path Traversal in Tar
File")` raised by the member-check loop; `typeError` is the
`TypeError` raised by `tar.extractall(path, members, numeric_owner)`
passing the keyword-only `numeric_owner` positionally. -/
inductive ExtractError where
  | pathTraversal
  | typeError
  deriving DecidableEq, Repr

/-- Observable outcome of the `if tarball:` block: the resolved
destination paths actually written, whether the temporary `.tar.gz`
file was removed, and the exception (if any) that aborted the block. -/
structure TarExtractResult where
  written : List String
  tarRemoved : Bool
  error : Option ExtractError
  deriving DecidableEq, Repr

/-- Model of the `if tarball:` block of the download functions: the
`safe_extract` member check runs over the whole archive first; if any
member fails, the "Attempted Path Traversal in Tar File" exception is
raised before anything is written; if every member passes, the
`tar.extractall(path, members, numeric_owner)` call itself raises
`TypeError` (keyword-only argument passed positionally) before writing
anything.  Either way no member is written and the `unlink()` of the
temporary archive is never reached. -/
def extractTarball (cwd root : String) (memberNames : List String) :
    TarExtractResult :=
  if safe_extract_check cwd root memberNames then
    ⟨[], false, some .typeError⟩
  else
    ⟨[], false, some .pathTraversal⟩

/-- Definition taken from the spec's words, for comparison with the
code's guard: a resolved destination path `target` "remains lexically
within the extraction root" `root` when, on normalized absolute paths,
it equals the root or lies below it (the root followed by a path
separator is a prefix of it). -/
def isLexicallyWithin (root target : String) : Bool :=
  target = root ∨ List.isPrefixOf (root ++ "/").toList target.toList

/-! ## Concrete fixtures used by the witness theorems -/

/-- Ledger text mapping rule `rule` to artifact file `h1.dat`. -/
def sampleLedgerText : String := "\x7b\"rule\": \"h1.dat\"\x7d"

/-- Draft whose ledger entry and file listing both match `rule`. -/
def sampleDraft : Draft := ⟨some sampleLedgerText, [⟨"rule", "draftcopy"⟩]⟩

/-- Draft holding a file named `rule` whose ledger hash is stale. -/
def staleDraft : Draft := ⟨some "\x7b\"rule\": \"old.dat\"\x7d", [⟨"rule", "stalecopy"⟩]⟩

/-- Published version holding a file named `rule` whose ledger hash is
stale. -/
def staleRecord : Record := ⟨some "\x7b\"rule\": \"old.dat\"\x7d", [⟨"rule", "stalecopy"⟩]⟩

/-- Older published version matching `rule`. -/
def recordV1 : Record := ⟨some sampleLedgerText, [⟨"rule", "v1copy"⟩]⟩

/-- Newer published version matching `rule`. -/
def recordV2 : Record := ⟨some sampleLedgerText, [⟨"rule", "v2copy"⟩]⟩

/-- Environment where the draft matches and two published versions
also match. -/
def envDraftHit : DownloadEnv :=
  ⟨true, some [⟨true⟩], true, sampleDraft, true, none, true, some [recordV1, recordV2], none⟩

/-- Environment where the draft is stale and two published versions
(oldest first) both match. -/
def envRecordHit : DownloadEnv :=
  ⟨true, some [⟨true⟩], true, staleDraft, true, none, true, some [recordV1, recordV2], none⟩

/-- Environment where the records probe fails with the
"PID is not registered" message. -/
def envUnregistered : DownloadEnv :=
  ⟨false, none, true, sampleDraft, false, some "PID is not registered in DataCite", true,
    some [], none⟩

/-- Environment where the records probe fails with an unrelated error
message. -/
def envServiceDown : DownloadEnv :=
  ⟨false, none, true, sampleDraft, false, some "Internal server error", true, some [], none⟩

/-! ## Helper lemmas -/

/-- With no ledger entry for the rule name, no file entry can satisfy
the filename-and-hash condition, so the scan always ends in
`FileNotFoundOnZenodo`. -/
theorem searchEntries_ruleHash_none (ruleName fileName : String) :
    ∀ files : List FileEntry, searchEntries none ruleName fileName files = .notFound := by
  intro files
  induction files with
  | nil => rfl
  | cons e rest ih =>
    simp only [searchEntries]
    by_cases h : e.filename = ruleName <;> simp [h, ih]

/-- The entry scan can only end in `found` or `notFound`; it never
produces the ledger-corruption or missing-token results. -/
theorem searchEntries_ne_invalidNotes (ruleHash : Option String) (ruleName fileName : String) :
    ∀ files : List FileEntry,
      searchEntries ruleHash ruleName fileName files ≠ .invalidNotes := by
  intro files
  induction files with
  | nil => simp [searchEntries]
  | cons e rest ih =>
    simp only [searchEntries]
    split
    · simp
    · split
      · simp
      · exact ih

/-- Parsing the default empty-object text yields the empty ledger. -/
theorem jsonLoadsLedger_empty : jsonLoadsLedger "\x7b\x7d" = some [] := rfl

/-! ## Claims -/

/-- C1: within one `download_file` call the draft is checked before any
published record — a full filename-and-hash match in the draft is the
copy downloaded, whatever the published versions hold — and published
records are searched newest-first: with the raw search hits in
publication order (oldest first) and iterated reversed, the newest
version's match wins over every older version, so with V1 (oldest) and
V2 (newest) both matching, V2's copy is returned. -/
theorem c1_draft_before_records_and_newest_first :
    (∀ (env : DownloadEnv) (d : DepositionStub) (ds : List DepositionStub) (e : FileEntry)
        (fileName ruleName : String),
        env.depsStatusOk = true →
        env.depsData = some (d :: ds) →
        d.hasLatestDraft = true →
        env.draftStatusOk = true →
        download_file_from_draft true env.draft fileName ruleName = .found e →
        download_file true env fileName ruleName = .foundInDraft e) ∧
    (∀ (env : DownloadEnv) (older : List Record) (newest : Record) (e : FileEntry)
        (fileName ruleName : String),
        draftPhase true env fileName ruleName = none →
        env.probeStatusOk = true →
        env.searchStatusOk = true →
        env.searchHits = some (older ++ [newest]) →
        download_file_from_record newest fileName ruleName = .found e →
        download_file true env fileName ruleName = .foundInRecord newest e) := by
  constructor
  · intro env d ds e fileName ruleName h1 h2 h3 h4 h5
    simp [download_file, draftPhase, h1, h2, h3, h4, h5]
  · intro env older newest e fileName ruleName h0 h1 h2 h3 h5
    simp [download_file, h0, recordPhase, h1, h2, h3, searchRecords, h5]

/-- Witness for C1: concrete environments in which the draft's copy
wins over two matching published versions, and in which the newest of
two matching published versions (hits listed oldest first) is the one
downloaded. -/
theorem c1_witness :
    download_file true envDraftHit "h1.dat" "rule" = .foundInDraft ⟨"rule", "draftcopy"⟩ ∧
    download_file true envRecordHit "h1.dat" "rule" =
      .foundInRecord recordV2 ⟨"rule", "v2copy"⟩ := by
  constructor
  · exact c1_draft_before_records_and_newest_first.1 envDraftHit ⟨true⟩ []
      ⟨"rule", "draftcopy"⟩ "h1.dat" "rule" rfl rfl rfl rfl (by decide)
  · exact c1_draft_before_records_and_newest_first.2 envRecordHit [recordV1] recordV2
      ⟨"rule", "v2copy"⟩ "h1.dat" "rule" (by decide) rfl rfl rfl (by decide)

/-- C3: a filename match whose ledger hash differs from the local
artifact's expected content identifier is not returned as a match and
stops the scan of that draft or version (whatever entries follow), the
record loop then continues with the next (older) version, and at the
top level a draft whose scan ended this way hands control to the
published-record phase. -/
theorem c3_stale_match_stops_version_and_search_continues :
    (∀ (ruleHash : Option String) (ruleName fileName : String) (e : FileEntry)
        (rest : List FileEntry),
        e.filename = ruleName →
        ruleHash ≠ some fileName →
        searchEntries ruleHash ruleName fileName (e :: rest) = .notFound) ∧
    (∀ (record : Record) (rest : List Record) (fileName ruleName : String),
        download_file_from_record record fileName ruleName = .notFound →
        searchRecords fileName ruleName (record :: rest) =
          searchRecords fileName ruleName rest) ∧
    (∀ (env : DownloadEnv) (d : DepositionStub) (ds : List DepositionStub)
        (fileName ruleName : String),
        env.depsStatusOk = true →
        env.depsData = some (d :: ds) →
        d.hasLatestDraft = true →
        env.draftStatusOk = true →
        download_file_from_draft true env.draft fileName ruleName = .notFound →
        download_file true env fileName ruleName = recordPhase env fileName ruleName) := by
  refine ⟨?_, ?_, ?_⟩
  · intro ruleHash ruleName fileName e rest h1 h2
    simp [searchEntries, h1, h2]
  · intro record rest fileName ruleName h
    simp [searchRecords, h]
  · intro env d ds fileName ruleName h1 h2 h3 h4 h5
    simp [download_file, draftPhase, h1, h2, h3, h4, h5]

/-- Witness for C3: the stale entry of `staleDraft` stops the scan even
with a further entry behind it; a stale published version is skipped in
favor of the rest of the (older) versions; and `envRecordHit`, whose
draft is stale, falls through to the record phase and downloads V2's
copy there. -/
theorem c3_witness :
    searchEntries (some "old.dat") "rule" "h1.dat"
      [⟨"rule", "stalecopy"⟩, ⟨"rule", "later"⟩] = .notFound ∧
    searchRecords "h1.dat" "rule" [staleRecord, recordV1] =
      searchRecords "h1.dat" "rule" [recordV1] ∧
    download_file true envRecordHit "h1.dat" "rule" =
      recordPhase envRecordHit "h1.dat" "rule" := by
  refine ⟨?_, ?_, ?_⟩
  · exact c3_stale_match_stops_version_and_search_continues.1 (some "old.dat") "rule"
      "h1.dat" ⟨"rule", "stalecopy"⟩ [⟨"rule", "later"⟩] rfl (by decide)
  · exact c3_stale_match_stops_version_and_search_continues.2.1 staleRecord [recordV1]
      "h1.dat" "rule" (by decide)
  · exact c3_stale_match_stops_version_and_search_continues.2.2 envRecordHit ⟨true⟩ []
      "h1.dat" "rule" rfl rfl rfl rfl (by decide)

/-- C4: when the published-record probe fails, a body message
containing "PID is not registered" degrades to the final
`FileNotFoundOnZenodo` cache miss, while any other failing response
raises a hard `ZenodoError` instead of a cache miss. -/
theorem c4_probe_failure_discrimination :
    (∀ (env : DownloadEnv) (fileName ruleName : String),
        draftPhase true env fileName ruleName = none →
        env.probeStatusOk = false →
        containsSubstr "PID is not registered" ((env.probeMessage).getD "") = true →
        download_file true env fileName ruleName = .cacheMiss) ∧
    (∀ (env : DownloadEnv) (fileName ruleName : String),
        draftPhase true env fileName ruleName = none →
        env.probeStatusOk = false →
        containsSubstr "PID is not registered" ((env.probeMessage).getD "") = false →
        download_file true env fileName ruleName =
          .serviceError ((env.probeMessage).getD defaultErrorMessage)) := by
  constructor <;> intro env fileName ruleName h0 h1 h2 <;>
    simp [download_file, h0, recordPhase, h1, h2]

/-- Witness for C4: an unregistered-identifier message yields a cache
miss; an unrelated server error raises `ZenodoError`. -/
theorem c4_witness :
    download_file true envUnregistered "h1.dat" "rule" = .cacheMiss ∧
    download_file true envServiceDown "h1.dat" "rule" =
      .serviceError "Internal server error" := by
  constructor
  · exact c4_probe_failure_discrimination.1 envUnregistered "h1.dat" "rule"
      rfl rfl (by decide)
  · exact c4_probe_failure_discrimination.2 envServiceDown "h1.dat" "rule"
      rfl rfl (by decide)

/-- C2: the member check does run over the whole archive before any
write, and the classic `../../etc/passed` member is rejected with the
path-traversal exception — but the rest of the claim fails on the
code: no extraction attempt ever succeeds, because after an all-safe
check `tar.extractall(path, members, numeric_owner)` raises
`TypeError` (the keyword-only `numeric_owner` is passed positionally),
so an all-safe archive is never extracted and the temporary `.tar.gz`
is never removed; moreover `is_within_directory` compares with
`os.path.commonprefix`, a character-wise prefix, so the member
`../database` under root `/d/data` resolves outside the root yet
passes the guard, and its abort is the `TypeError`, not the claimed
path-traversal failure.  Nothing is ever written by the block, inside
or outside the root. -/
theorem c2_extraction_never_succeeds :
    (∀ (cwd root : String) (memberNames : List String),
        (extractTarball cwd root memberNames).written = [] ∧
        (extractTarball cwd root memberNames).tarRemoved = false ∧
        (extractTarball cwd root memberNames).error ≠ none) ∧
    extractTarball "/" "/d/data" ["../../etc/passed"] = ⟨[], false, some .pathTraversal⟩ ∧
    extractTarball "/" "/d/data" ["a.txt", "sub/b.txt"] = ⟨[], false, some .typeError⟩ ∧
    extractTarball "/" "/d/data" ["../database"] = ⟨[], false, some .typeError⟩ ∧
    safe_extract_check "/" "/d/data" ["../database"] = true ∧
    isLexicallyWithin "/d/data" (abspath "/" (posixJoin "/d/data" "../database")) = false := by
  refine ⟨?_, rfl, rfl, rfl, ?_, ?_⟩
  · intro cwd root memberNames
    unfold extractTarball
    split <;> simp
  · decide
  · decide

/-- C5: a present notes value that is not valid JSON makes all three
ledger readers — upload to draft, download from draft, download from
record — fail with `InvalidZenodoNotesField` instead of resetting the
ledger. -/
theorem c5_corrupt_notes_always_rejected :
    ∀ (s : String), jsonLoadsLedger s = none →
      ∀ (files : List FileEntry) (fileName ruleName : String),
        upload_file_to_draft true ⟨some s, files⟩ fileName ruleName = .invalidNotes ∧
        download_file_from_draft true ⟨some s, files⟩ fileName ruleName = .invalidNotes ∧
        download_file_from_record ⟨some s, files⟩ fileName ruleName = .invalidNotes := by
  intro s hs files fileName ruleName
  refine ⟨?_, ?_, ?_⟩ <;>
    simp [upload_file_to_draft, download_file_from_draft, download_file_from_record,
      notesOrDefault, hs]

/-- Witness for C5: the non-JSON notes value "corrupt" is rejected by
all three operations. -/
theorem c5_witness :
    jsonLoadsLedger "corrupt" = none ∧
    upload_file_to_draft true ⟨some "corrupt", []⟩ "h1.dat" "rule" = .invalidNotes ∧
    download_file_from_draft true ⟨some "corrupt", []⟩ "h1.dat" "rule" = .invalidNotes ∧
    download_file_from_record ⟨some "corrupt", []⟩ "h1.dat" "rule" = .invalidNotes := by
  refine ⟨rfl, ?_⟩
  exact c5_corrupt_notes_always_rejected "corrupt" rfl [] "h1.dat" "rule"

/-- C6: with a token present, a failing depositions search — an error
status, an unparsable body, or an empty result list — makes
`upload_file` log the "cache not updated" warning and return normally,
raising nothing and touching no remote state. -/
theorem c6_upload_auth_failure_degrades_to_warning :
    ∀ (env : UploadEnv) (fileName ruleName : String),
      env.depsStatusOk = false ∨ env.depsData = none ∨ env.depsData = some [] →
      upload_file true env fileName ruleName = .warnedNoUpload := by
  intro env fileName ruleName h
  rcases h with h | h | h
  · simp [upload_file, h]
  all_goals by_cases hd : env.depsStatusOk <;> simp [upload_file, h, hd]

/-- Witness for C6: a depositions search that fails outright, one with
an unparsable body and one with an empty result all degrade to the
warning branch. -/
theorem c6_witness :
    upload_file true ⟨false, none, true, sampleDraft⟩ "h1.dat" "rule" = .warnedNoUpload ∧
    upload_file true ⟨true, none, true, sampleDraft⟩ "h1.dat" "rule" = .warnedNoUpload ∧
    upload_file true ⟨true, some [], true, sampleDraft⟩ "h1.dat" "rule" = .warnedNoUpload := by
  refine ⟨?_, ?_, ?_⟩
  · exact c6_upload_auth_failure_degrades_to_warning ⟨false, none, true, sampleDraft⟩
      "h1.dat" "rule" (Or.inl rfl)
  · exact c6_upload_auth_failure_degrades_to_warning ⟨true, none, true, sampleDraft⟩
      "h1.dat" "rule" (Or.inr (Or.inl rfl))
  · exact c6_upload_auth_failure_degrades_to_warning ⟨true, some [], true, sampleDraft⟩
      "h1.dat" "rule" (Or.inr (Or.inr rfl))

/-- C7: when no deposition of the concept is unsubmitted, `delete`
raises `ZenodoRecordNotFound` and deletes nothing; when an unpublished
version exists, the version found by the loop (the first unsubmitted
one) is the one whose `DELETE` request is issued. -/
theorem c7_delete_targets_unsubmitted_version :
    (∀ (l : List Deposition), (∀ d ∈ l, d.submitted = true) →
        delete true (some l) = .recordNotFound) ∧
    (∀ (l1 : List Deposition) (d : Deposition) (l2 : List Deposition),
        (∀ x ∈ l1, x.submitted = true) → d.submitted = false →
        delete true (some (l1 ++ d :: l2)) = .deleted d.id) := by
  constructor
  · intro l h
    have hf : l.find? (fun d => !d.submitted) = none := by
      rw [List.find?_eq_none]
      intro x hx
      simp [h x hx]
    simp [delete, hf]
  · intro l1 d l2 h1 h2
    have hf : (l1 ++ d :: l2).find? (fun d => !d.submitted) = some d := by
      induction l1 with
      | nil => simp [List.find?, h2]
      | cons a as ih =>
        have ha : a.submitted = true := h1 a (by simp)
        have ih2 : (as ++ d :: l2).find? (fun d => !d.submitted) = some d :=
          ih (fun x hx => h1 x (by simp [hx]))
        simpa [List.find?, ha] using ih2
    simp [delete, hf]

/-- Witness for C7: a fully-submitted deposition list yields
`ZenodoRecordNotFound`; with an unsubmitted version present, its id
(7) is the one deleted. -/
theorem c7_witness :
    delete true (some [⟨true, 5⟩]) = .recordNotFound ∧
    delete true (some [⟨true, 5⟩, ⟨false, 7⟩, ⟨false, 9⟩]) = .deleted 7 := by
  constructor
  · exact c7_delete_targets_unsubmitted_version.1 [⟨true, 5⟩] (by decide)
  · exact c7_delete_targets_unsubmitted_version.2 [⟨true, 5⟩] ⟨false, 7⟩ [⟨false, 9⟩]
      (by decide) rfl

/-- C8: with `AUTH_VALID` already set, `check_if_user_is_owner`
answers true with no network request; on a fresh session a successful
probe finding owned depositions sets `AUTH_VALID`, while any failure —
a bad status, a result that is not a nonempty list, or no token at all
(the latter without any request) — sets `AUTH_INVALID` and answers
false; and the operation preserves the invariant that at most one of
the two flags is set. -/
theorem c8_ownership_probe_memoization :
    (∀ (s : Session) (hasToken : Bool) (probe : OwnerProbe),
        s.authValid = true →
        check_if_user_is_owner s hasToken probe = ⟨true, s, false⟩) ∧
    (∀ (s : Session) (probe : OwnerProbe),
        s.authValid = false → s.authInvalid = false →
        probe.statusOk = true → probe.isNonemptyList = true →
        check_if_user_is_owner s true probe = ⟨true, ⟨true, false⟩, true⟩) ∧
    (∀ (s : Session) (hasToken : Bool) (probe : OwnerProbe),
        s.authValid = false → s.authInvalid = false →
        hasToken = false ∨ probe.statusOk = false ∨ probe.isNonemptyList = false →
        (check_if_user_is_owner s hasToken probe).answer = false ∧
        (check_if_user_is_owner s hasToken probe).session.authInvalid = true ∧
        (check_if_user_is_owner s hasToken probe).session.authValid = false) ∧
    (∀ (s : Session) (hasToken : Bool) (probe : OwnerProbe),
        ¬(s.authValid = true ∧ s.authInvalid = true) →
        ¬((check_if_user_is_owner s hasToken probe).session.authValid = true ∧
          (check_if_user_is_owner s hasToken probe).session.authInvalid = true)) := by
  refine ⟨?_, ?_, ?_, ?_⟩
  · intro s hasToken probe h
    simp [check_if_user_is_owner, h]
  · intro s probe h1 h2 h3 h4
    simp [check_if_user_is_owner, h1, h2, h3, h4]
  · intro s hasToken probe h1 h2 h
    rcases h with h | h | h <;> by_cases ht : hasToken <;>
      simp [check_if_user_is_owner, h1, h2, h, ht]
  · intro s hasToken probe h
    unfold check_if_user_is_owner
    split_ifs with h1 h2 h3 h4 <;> simp_all

/-- Witness for C8: a session with `AUTH_VALID` set answers true with
no request; a fresh session with a successful probe sets `AUTH_VALID`;
a fresh session with no token sets `AUTH_INVALID` with no request;
and the flag invariant is preserved on a concrete fresh session. -/
theorem c8_witness :
    check_if_user_is_owner ⟨true, false⟩ true ⟨false, false⟩ = ⟨true, ⟨true, false⟩, false⟩ ∧
    check_if_user_is_owner ⟨false, false⟩ true ⟨true, true⟩ = ⟨true, ⟨true, false⟩, true⟩ ∧
    (check_if_user_is_owner ⟨false, false⟩ false ⟨true, true⟩).answer = false ∧
    (check_if_user_is_owner ⟨false, false⟩ false ⟨true, true⟩).session.authInvalid = true ∧
    (check_if_user_is_owner ⟨false, false⟩ false ⟨true, true⟩).session.authValid = false ∧
    ¬((check_if_user_is_owner ⟨false, false⟩ true ⟨true, false⟩).session.authValid = true ∧
      (check_if_user_is_owner ⟨false, false⟩ true ⟨true, false⟩).session.authInvalid = true) := by
  have h3 := c8_ownership_probe_memoization.2.2.1 ⟨false, false⟩ false ⟨true, true⟩
    rfl rfl (Or.inl rfl)
  exact ⟨c8_ownership_probe_memoization.1 ⟨true, false⟩ true ⟨false, false⟩ rfl,
    c8_ownership_probe_memoization.2.1 ⟨false, false⟩ ⟨true, true⟩ rfl rfl rfl rfl,
    h3.1, h3.2.1, h3.2.2,
    c8_ownership_probe_memoization.2.2.2 ⟨false, false⟩ true ⟨true, false⟩ (by simp)⟩

/-- C9: when the draft's ledger entry for the rule name already equals
the local file's name, `upload_file_to_draft` returns at once: no
remote file is deleted, nothing is uploaded, and the draft — files and
metadata alike — is left exactly as it was. -/
theorem c9_up_to_date_upload_is_noop :
    ∀ (draft : Draft) (ledger : List (String × String)) (fileName ruleName : String),
      jsonLoadsLedger (notesOrDefault draft.notes) = some ledger →
      dictGet ledger ruleName = some fileName →
      upload_file_to_draft true draft fileName ruleName = .done ⟨none, false, draft⟩ := by
  intro draft ledger fileName ruleName h1 h2
  simp [upload_file_to_draft, h1, h2]

/-- Witness for C9: uploading `h1.dat` for rule `rule` to a draft whose
ledger already maps `rule` to `h1.dat` changes nothing. -/
theorem c9_witness :
    upload_file_to_draft true sampleDraft "h1.dat" "rule" =
      .done ⟨none, false, sampleDraft⟩ := by
  exact c9_up_to_date_upload_is_noop sampleDraft [("rule", "h1.dat")] "h1.dat" "rule"
    (by decide) rfl

/-- C10: a metadata blob with no notes field is an empty ledger, not an
error: both download operations miss (raise `FileNotFoundOnZenodo`)
whatever the file listing holds, the upload proceeds deleting nothing,
and in all three operations `InvalidZenodoNotesField` arises exactly
when a notes value is present and fails to parse as JSON. -/
theorem c10_missing_notes_is_empty_ledger :
    (∀ (files : List FileEntry) (fileName ruleName : String),
        download_file_from_draft true ⟨none, files⟩ fileName ruleName = .notFound) ∧
    (∀ (files : List FileEntry) (fileName ruleName : String),
        download_file_from_record ⟨none, files⟩ fileName ruleName = .notFound) ∧
    (∀ (files : List FileEntry) (fileName ruleName : String),
        upload_file_to_draft true ⟨none, files⟩ fileName ruleName =
          .done ⟨none, true, ⟨some (serializeLedger [(ruleName, fileName)]),
                               putFile files ⟨ruleName, fileName⟩⟩⟩) ∧
    (∀ (notes : Option String) (files : List FileEntry) (fileName ruleName : String),
        (download_file_from_draft true ⟨notes, files⟩ fileName ruleName = .invalidNotes ↔
          ∃ s, notes = some s ∧ jsonLoadsLedger s = none) ∧
        (download_file_from_record ⟨notes, files⟩ fileName ruleName = .invalidNotes ↔
          ∃ s, notes = some s ∧ jsonLoadsLedger s = none) ∧
        (upload_file_to_draft true ⟨notes, files⟩ fileName ruleName = .invalidNotes ↔
          ∃ s, notes = some s ∧ jsonLoadsLedger s = none)) := by
  refine ⟨?_, ?_, ?_, ?_⟩
  · intro files fileName ruleName
    simp [download_file_from_draft, notesOrDefault, jsonLoadsLedger_empty, dictGet,
      searchEntries_ruleHash_none]
  · intro files fileName ruleName
    simp [download_file_from_record, notesOrDefault, jsonLoadsLedger_empty, dictGet,
      searchEntries_ruleHash_none]
  · intro files fileName ruleName
    simp [upload_file_to_draft, notesOrDefault, jsonLoadsLedger_empty, dictGet, dictInsert]
  · intro notes files fileName ruleName
    rcases notes with _ | s
    · refine ⟨?_, ?_, ?_⟩ <;>
        simp [download_file_from_draft, download_file_from_record, upload_file_to_draft,
          notesOrDefault, jsonLoadsLedger_empty, dictGet, searchEntries_ruleHash_none]
    · rcases hj : jsonLoadsLedger s with _ | ledger
      · refine ⟨?_, ?_, ?_⟩ <;>
          simp [download_file_from_draft, download_file_from_record, upload_file_to_draft,
            notesOrDefault, hj]
      · refine ⟨?_, ?_, ?_⟩ <;>
          simp only [download_file_from_draft, download_file_from_record,
            upload_file_to_draft, notesOrDefault, Option.getD_some, hj, if_true]
        · simp [searchEntries_ne_invalidNotes, hj]
        · simp [searchEntries_ne_invalidNotes, hj]
        · by_cases hg : dictGet ledger ruleName = some fileName <;> simp [hg, hj]

end Zenodo
